import Mathlib

/-!
# Verification of the `gofs` adapter (absfs/gofs)

Shallow embedding of `src/gofs.go`: the adapter that presents an
`absfs.Filer` filesystem through Go's `io/fs` interfaces.  The underlying
filesystem and its open file handles (the external collaborators consumed
via the `absfs` interfaces) are modelled as explicit data: an open handle
carries its remaining directory entries, its byte content, and
fault-injection fields recording whether its read, list or close
operations fail.  Machine integers (`int`) are modelled as `Int`, byte
slices as `List Nat`, and Go's `(value, error)` returns as `Except` /
pairs with `Option` errors.
-/

namespace Gofs

/-- Errors flowing through the adapter.  `eof` stands for Go's `io.EOF`
sentinel; `underlying n` stands for any other error value produced by the
wrapped filesystem (not-found, permission, already-closed, ...), which the
adapter treats as opaque. -/
inductive Err where
  | eof : Err
  | underlying : Nat → Err
deriving DecidableEq, Repr

/-- Model of `os.FileInfo`, the metadata record the underlying filesystem
produces for each file: base name, size, full mode word (`fs.FileMode` as a
natural number of flag bits) and the directory flag.  Modification time is
omitted: no code under verification inspects it. -/
structure FileInfo where
  name : String
  size : Int
  mode : Nat
  isDir : Bool
deriving DecidableEq, Repr

/-- Model of an open `absfs.File` handle (external collaborator): the
directory entries not yet consumed by the handle's listing cursor, the
outcome of listing (`readdirErr` injects a failure of `Readdir`), the byte
content remaining to read, the outcome of reading (`readErr` injects a
failure of `Read`/`ReadAll`), and the outcome of `Close` (`closeErr = some e`
means the close fails with `e`). -/
structure AbsFile where
  entries : List FileInfo
  readdirErr : Option Err
  content : List Nat
  readErr : Option Err
  closeErr : Option Err
deriving DecidableEq, Repr

/-- The underlying handle's `Readdir(n)`, following the documented
`os.File.Readdir` semantics that `absfs` implementations follow: for
`n <= 0` it returns every remaining entry with a nil error (even when none
remain); for `n > 0` it returns up to `n` entries, advancing the cursor,
and signals `io.EOF` once no entries remain. -/
def AbsFile.Readdir (u : AbsFile) (n : Int) : (Except Err (List FileInfo)) × AbsFile :=
  match u.readdirErr with
  | some e => (Except.error e, u)
  | none =>
    if n ≤ 0 then
      (Except.ok u.entries, { u with entries := [] })
    else if u.entries.isEmpty then
      (Except.error Err.eof, u)
    else
      (Except.ok (u.entries.take n.toNat), { u with entries := u.entries.drop n.toNat })

/-- The underlying handle's `Close`: returns the injected close outcome. -/
def AbsFile.Close (u : AbsFile) : Option Err :=
  u.closeErr

/-- Reading the handle to end-of-stream (`ioutil.ReadAll(file)` as used by
`FileSystem.ReadFile`): the remaining content on success, the injected
read failure otherwise. -/
def AbsFile.ReadAll (u : AbsFile) : Except Err (List Nat) :=
  match u.readErr with
  | some e => Except.error e
  | none => Except.ok u.content

/-- Model of `absfs.Filer`, the wrapped filesystem capability: open a path
with flags and permissions, or stat a path. -/
structure Filer where
  openFile : String → Int → Nat → Except Err AbsFile
  stat : String → Except Err FileInfo

/-- `absfs.O_RDONLY` (= `os.O_RDONLY` = 0), the flag `gofs` passes on every
open. -/
def O_RDONLY : Int := 0

/-- `gofs.FileSystem` (src/gofs.go lines 11-13): wraps one `absfs.Filer`. -/
structure FileSystem where
  Fs : Filer

/-- `gofs.File` (src/gofs.go lines 15-17): wraps one open `absfs.File`. -/
structure File where
  F : AbsFile
deriving DecidableEq, Repr

/-- `gofs.DirEntry` (src/gofs.go lines 19-21): wraps one captured
`os.FileInfo` record. -/
structure DirEntry where
  FileInfo : FileInfo
deriving DecidableEq, Repr

/-- `gofs.NewFs` (src/gofs.go lines 23-25): wraps the filer, never fails
(`nil` error modelled as `none`). -/
def NewFs (f : Filer) : FileSystem × Option Err :=
  (FileSystem.mk f, none)

/-- `FileSystem.Open` (src/gofs.go lines 27-33): open the path read-only
through the underlying filer; propagate an underlying failure unchanged,
otherwise wrap the opened handle in a `gofs.File`. -/
def FileSystem.Open (fsys : FileSystem) (name : String) : Except Err File :=
  match fsys.Fs.openFile name O_RDONLY 0 with
  | Except.error e => Except.error e
  | Except.ok file => Except.ok (File.mk file)

/-- The `for _, info := range list { dirs = append(dirs, DirEntry{info}) }`
loop shared by `FileSystem.ReadDir` (lines 56-59) and `File.ReadDir`
(lines 99-102): wraps every listed record in a `DirEntry`, appending in
order.  There is no filtering of any entry name in this loop. -/
def appendEntries : List FileInfo → List DirEntry → List DirEntry
  | [], dirs => dirs
  | info :: rest, dirs => appendEntries rest (dirs ++ [DirEntry.mk info])

/-- Result of a batch operation (`ReadFile` / `ReadDir` at the filesystem
level), instrumented with whether the deferred `file.Close()` ran, so the
scoped-acquisition discipline is observable. -/
structure OpResult (α : Type) where
  result : Except Err α
  closedHandle : Bool

/-- `FileSystem.ReadDir` (src/gofs.go lines 35-61): open read-only, request
the full listing via `Readdir(0)`, wrap every record in a `DirEntry`, and
close the handle through the deferred block on every exit path after a
successful open.  The deferred block keeps an existing error (closing
silently) and otherwise surfaces the close outcome in place of success. -/
def FileSystem.ReadDir (fsys : FileSystem) (name : String) : OpResult (List DirEntry) :=
  match fsys.Fs.openFile name O_RDONLY 0 with
  | Except.error e => OpResult.mk (Except.error e) false
  | Except.ok file =>
    match (AbsFile.Readdir file 0).fst with
    | Except.error e => OpResult.mk (Except.error e) true
    | Except.ok list =>
      match AbsFile.Close file with
      | some ce => OpResult.mk (Except.error ce) true
      | none => OpResult.mk (Except.ok (appendEntries list [])) true

/-- `FileSystem.ReadFile` (src/gofs.go lines 63-78): open read-only, read to
end-of-stream with `ioutil.ReadAll`, and close through the same deferred
block: a read failure is kept (close runs, its outcome discarded); after a
successful read the close outcome replaces the result's error slot. -/
def FileSystem.ReadFile (fsys : FileSystem) (name : String) : OpResult (List Nat) :=
  match fsys.Fs.openFile name O_RDONLY 0 with
  | Except.error e => OpResult.mk (Except.error e) false
  | Except.ok file =>
    match AbsFile.ReadAll file with
    | Except.error e => OpResult.mk (Except.error e) true
    | Except.ok data =>
      match AbsFile.Close file with
      | some ce => OpResult.mk (Except.error ce) true
      | none => OpResult.mk (Except.ok data) true

/-- `FileSystem.Stat` (src/gofs.go lines 80-82): direct forward to the
underlying filer's `Stat`. -/
def FileSystem.Stat (fsys : FileSystem) (name : String) : Except Err FileInfo :=
  fsys.Fs.stat name

/-- `File.ReadDir` (src/gofs.go lines 92-104): delegates to the underlying
handle's `Readdir(0)` — note the argument `n` is not consulted anywhere in
the body — propagates a listing failure, and otherwise wraps every
returned record in a `DirEntry` with no filtering.  (`File.Stat` and
`File.Read`, lines 84-90, are plain one-line forwards not needed by any
claim and are not embedded.) -/
def File.ReadDir (f : File) (n : Int) : (Except Err (List DirEntry)) × File :=
  match AbsFile.Readdir f.F 0 with
  | (Except.error e, u) => (Except.error e, File.mk u)
  | (Except.ok list, u) => (Except.ok (appendEntries list []), File.mk u)

/-- `File.Close` (src/gofs.go lines 106-108): forward to the underlying
handle's `Close`. -/
def File.Close (f : File) : Option Err :=
  AbsFile.Close f.F

/-- `DirEntry.Name` (src/gofs.go lines 110-112). -/
def DirEntry.Name (d : DirEntry) : String :=
  d.FileInfo.name

/-- `DirEntry.IsDir` (src/gofs.go lines 114-116). -/
def DirEntry.IsDir (d : DirEntry) : Bool :=
  d.FileInfo.isDir

/-- `DirEntry.Type` (src/gofs.go lines 118-120); `Type` is a Lean keyword,
so the embedding names it `entryType`.  It returns the wrapped record's
full `Mode()` word, with no masking. -/
def DirEntry.entryType (d : DirEntry) : Nat :=
  d.FileInfo.mode

/-- `DirEntry.Info` (src/gofs.go lines 122-124): the captured record paired
with a `nil` error. -/
def DirEntry.Info (d : DirEntry) : Gofs.FileInfo × Option Err :=
  (d.FileInfo, none)

/-- The spec's entry-filtering rule, verbatim from the spec (not from the
code): "any entry whose name is the self-reference token or the
parent-reference token must be excluded from every listing result". -/
def specFiltered (l : List FileInfo) : List FileInfo :=
  l.filter (fun i => !(i.name == "." || i.name == ".."))

/-- The lower nine permission bits of a mode word (`fs.ModePerm` = 0o777);
a `Type()` that returned only the type-classification bits would always
have these at zero. -/
def permBits (m : Nat) : Nat :=
  m % 512

/-- An open directory handle over listing `l` with no fault injection. -/
def plainDir (l : List FileInfo) : AbsFile :=
  { entries := l, readdirErr := none, content := [], readErr := none, closeErr := none }

/-- The self-reference pseudo-entry "." as the underlying implementation
(e.g. memfs) reports it: a directory with mode `ModeDir ||| 0o755`. -/
def dotInfo : FileInfo :=
  { name := ".", size := 0, mode := 2147484141, isDir := true }

/-- The parent-reference pseudo-entry "..". -/
def dotdotInfo : FileInfo :=
  { name := "..", size := 0, mode := 2147484141, isDir := true }

/-- A regular child file named `s` with mode `0o644` and size 7. -/
def childInfo (s : String) : FileInfo :=
  { name := s, size := 7, mode := 420, isDir := false }

/-- A raw listing that interleaves both pseudo-entries with one child. -/
def pseudoListing : List FileInfo :=
  [dotInfo, dotdotInfo, childInfo "a"]

/-- A raw listing with both pseudo-entries and two children. -/
def pseudoListing4 : List FileInfo :=
  [dotInfo, dotdotInfo, childInfo "a", childInfo "b"]

/-- The spec's concrete scenario: five children plus the underlying
implementation's self/parent pseudo-entries (seven raw entries). -/
def listing7 : List FileInfo :=
  [dotInfo, dotdotInfo, childInfo "file1.txt", childInfo "file2.txt",
   childInfo "file3.txt", childInfo "file4.txt", childInfo "file5.txt"]

/-- "not found" as an opaque underlying error value. -/
def enoent : Err := Err.underlying 2

/-- An injected close failure. -/
def closeE : Err := Err.underlying 5

/-- An injected read / list failure. -/
def readE : Err := Err.underlying 9

/-- A filer whose every open yields the fixed handle `u`. -/
def constFiler (u : AbsFile) : Filer :=
  { openFile := fun _ _ _ => Except.ok u, stat := fun _ => Except.error enoent }

/-- A filer whose every open and stat fails with `enoent`. -/
def failOpenFiler : Filer :=
  { openFile := fun _ _ _ => Except.error enoent, stat := fun _ => Except.error enoent }

/-- A handle that opens and reads fine but whose `Close` fails. -/
def closeFailFile : AbsFile :=
  { entries := [], readdirErr := none, content := [7, 8], readErr := none,
    closeErr := some closeE }

/-- A handle whose read and listing both fail with `readE`. -/
def readFailFile : AbsFile :=
  { entries := [], readdirErr := some readE, content := [], readErr := some readE,
    closeErr := none }

/-- Idealized in-memory underlying filesystem (the external collaborator,
e.g. `memfs` in the repository's example): a map from path to stored
bytes; opening a stored path yields a handle whose content is those bytes
and whose read and close succeed, opening a missing path fails. -/
def storeFiler (store : String → Option (List Nat)) : Filer :=
  { openFile := fun name _ _ =>
      match store name with
      | none => Except.error enoent
      | some data =>
        Except.ok { entries := [], readdirErr := none, content := data,
                    readErr := none, closeErr := none },
    stat := fun name =>
      match store name with
      | none => Except.error enoent
      | some data =>
        Except.ok { name := name, size := (data.length : Int), mode := 420, isDir := false } }

/-- Writing bytes `b` at `path` in the underlying store. -/
def writeStore (store : String → Option (List Nat)) (path : String) (b : List Nat) :
    String → Option (List Nat) :=
  fun q => if q = path then some b else store q

/-- Claim C1 (refuting evaluation): directory listings returned across the
adapter interface do contain the pseudo-entries.  On an underlying listing
`[".", "..", "a"]` both `FileSystem.ReadDir` and `File.ReadDir` return a
batch containing an entry named "." (resp. ".."): `src/gofs.go` filters
nothing. -/
theorem readDir_returns_pseudo_entries :
    (∃ dirs, (FileSystem.ReadDir (FileSystem.mk (constFiler (plainDir pseudoListing))) "d").result
        = Except.ok dirs ∧ DirEntry.mk dotInfo ∈ dirs ∧
        DirEntry.Name (DirEntry.mk dotInfo) = ".") ∧
    (∃ dirs, ((File.mk (plainDir pseudoListing)).ReadDir 0).fst = Except.ok dirs ∧
        DirEntry.mk dotdotInfo ∈ dirs ∧
        DirEntry.Name (DirEntry.mk dotdotInfo) = "..") := by
  refine ⟨⟨appendEntries pseudoListing [], rfl, ?_, rfl⟩,
          ⟨appendEntries pseudoListing [], rfl, ?_, rfl⟩⟩ <;> decide

/-- Claim C2 (refuting evaluation): `File.ReadDir(3)` on a handle over the
spec's seven-entry raw listing (five children plus the two pseudo-entries)
returns all seven entries — the code never consults `max`, contradicting
both the claim and the repository's own test `TestFile_ReadDir`, which
expects exactly 3. -/
theorem file_readDir_ignores_max :
    ((File.mk (plainDir listing7)).ReadDir 3).fst = Except.ok (appendEntries listing7 []) ∧
    (appendEntries listing7 []).length = 7 ∧ ¬((appendEntries listing7 []).length ≤ 3) := by
  exact ⟨rfl, rfl, by decide⟩

/-- Claim C3 (refuting evaluation): paging with `max = 1` over the raw
listing `[".", "..", "a", "b"]`, the first call returns all four raw
entries (pseudo-entries included) and the next call returns nothing, so
the concatenation of batches is the raw set, not the filtered child set
`["a", "b"]` required by the claim. -/
theorem file_readDir_pagination_unfiltered :
    (((File.mk (plainDir pseudoListing4)).ReadDir 1).fst =
        Except.ok (appendEntries pseudoListing4 [])) ∧
    ((((File.mk (plainDir pseudoListing4)).ReadDir 1).snd.ReadDir 1).fst = Except.ok []) ∧
    ((appendEntries pseudoListing4 []).map DirEntry.Name = [".", "..", "a", "b"]) ∧
    ((specFiltered pseudoListing4).map FileInfo.name = ["a", "b"]) ∧
    (appendEntries pseudoListing4 []).map DirEntry.Name ≠
      (specFiltered pseudoListing4).map FileInfo.name := by
  exact ⟨rfl, rfl, rfl, rfl, by decide⟩

/-- Claim C4 (refuting evaluation): on an exhausted directory handle,
`File.ReadDir(1)` returns a successful empty batch, never the end-of-stream
error; and on a handle whose listing holds only the two pseudo-entries
(zero filtered entries available) it returns those two entries
successfully instead of propagating exhaustion. -/
theorem file_readDir_no_eof_propagation :
    (((File.mk (plainDir [])).ReadDir 1).fst = Except.ok []) ∧
    (((File.mk (plainDir [])).ReadDir 1).fst ≠ Except.error Err.eof) ∧
    (((File.mk (plainDir [dotInfo, dotdotInfo])).ReadDir 1).fst =
        Except.ok (appendEntries [dotInfo, dotdotInfo] [])) ∧
    ((appendEntries [dotInfo, dotdotInfo] []).length = 2) ∧
    (specFiltered [dotInfo, dotdotInfo] = []) := by
  exact ⟨rfl, fun h => Except.noConfusion h, rfl, rfl, rfl⟩

/-- Claim C6 (refuting evaluation): `File.ReadDir(0)` does return every
remaining entry in one call and in order, but unfiltered: on the raw
listing `[".", "..", "a"]` the returned names are `[".", "..", "a"]`,
not the filtered `["a"]` the claim requires. -/
theorem file_readDir_all_unfiltered :
    (((File.mk (plainDir pseudoListing)).ReadDir 0).fst =
        Except.ok (appendEntries pseudoListing [])) ∧
    ((appendEntries pseudoListing []).map DirEntry.Name = [".", "..", "a"]) ∧
    ((specFiltered pseudoListing).map FileInfo.name = ["a"]) ∧
    (appendEntries pseudoListing []).map DirEntry.Name ≠
      (specFiltered pseudoListing).map FileInfo.name := by
  exact ⟨rfl, rfl, rfl, by decide⟩

/-- Claim C5: for every path, `ReadFile` and `ReadDir` close the opened
handle on every exit path after a successful open; when the open itself
fails the underlying error comes back and no close is attempted; a read
(or listing) failure is returned as-is; and a close failure after a
successful read replaces the success result. -/
theorem readFile_readDir_close_discipline (fsys : Filer) (name : String) :
    (∀ e, fsys.openFile name O_RDONLY 0 = Except.error e →
        FileSystem.ReadFile (FileSystem.mk fsys) name = OpResult.mk (Except.error e) false ∧
        FileSystem.ReadDir (FileSystem.mk fsys) name = OpResult.mk (Except.error e) false) ∧
    (∀ u, fsys.openFile name O_RDONLY 0 = Except.ok u →
        (FileSystem.ReadFile (FileSystem.mk fsys) name).closedHandle = true ∧
        (FileSystem.ReadDir (FileSystem.mk fsys) name).closedHandle = true ∧
        (∀ e, u.readErr = some e →
            (FileSystem.ReadFile (FileSystem.mk fsys) name).result = Except.error e) ∧
        (∀ ce, u.readErr = none → u.closeErr = some ce →
            (FileSystem.ReadFile (FileSystem.mk fsys) name).result = Except.error ce) ∧
        (u.readErr = none → u.closeErr = none →
            (FileSystem.ReadFile (FileSystem.mk fsys) name).result = Except.ok u.content) ∧
        (∀ e, u.readdirErr = some e →
            (FileSystem.ReadDir (FileSystem.mk fsys) name).result = Except.error e) ∧
        (∀ ce, u.readdirErr = none → u.closeErr = some ce →
            (FileSystem.ReadDir (FileSystem.mk fsys) name).result = Except.error ce)) := by
  constructor
  · intro e he
    exact ⟨by simp [FileSystem.ReadFile, he], by simp [FileSystem.ReadDir, he]⟩
  · rintro ⟨entries, rde, cont, re, ce⟩ hu
    refine ⟨?_, ?_, ?_, ?_, ?_, ?_, ?_⟩
    · simp only [FileSystem.ReadFile, hu, AbsFile.ReadAll, AbsFile.Close]
      cases re <;> cases ce <;> rfl
    · simp only [FileSystem.ReadDir, hu, AbsFile.Readdir, AbsFile.Close]
      cases rde <;> cases ce <;> rfl
    · intro e h
      cases h
      simp [FileSystem.ReadFile, hu, AbsFile.ReadAll]
    · intro c hre hce
      cases hre
      cases hce
      simp [FileSystem.ReadFile, hu, AbsFile.ReadAll, AbsFile.Close]
    · intro hre hce
      cases hre
      cases hce
      simp [FileSystem.ReadFile, hu, AbsFile.ReadAll, AbsFile.Close]
    · intro e h
      cases h
      simp [FileSystem.ReadDir, hu, AbsFile.Readdir]
    · intro c hrde hce
      cases hrde
      cases hce
      simp [FileSystem.ReadDir, hu, AbsFile.Readdir, AbsFile.Close]

/-- Witness for C5: concrete runs discharging each hypothesis — an open
failure leaves the handle unclosed and surfaces `enoent`; a close failure
after a successful read surfaces the close error with the handle closed;
a read (or listing) failure surfaces that failure. -/
theorem close_discipline_witness :
    FileSystem.ReadFile (FileSystem.mk failOpenFiler) "p" =
        OpResult.mk (Except.error enoent) false ∧
    (FileSystem.ReadFile (FileSystem.mk (constFiler closeFailFile)) "p").result =
        Except.error closeE ∧
    (FileSystem.ReadFile (FileSystem.mk (constFiler readFailFile)) "p").result =
        Except.error readE ∧
    (FileSystem.ReadDir (FileSystem.mk (constFiler readFailFile)) "p").result =
        Except.error readE ∧
    (FileSystem.ReadFile (FileSystem.mk (constFiler closeFailFile)) "p").closedHandle = true := by
  have h1 := (readFile_readDir_close_discipline failOpenFiler "p").1 enoent rfl
  have h2 := (readFile_readDir_close_discipline (constFiler closeFailFile) "p").2
      closeFailFile rfl
  have h3 := (readFile_readDir_close_discipline (constFiler readFailFile) "p").2
      readFailFile rfl
  exact ⟨h1.1, h2.2.2.2.1 closeE rfl rfl, h3.2.2.1 readE rfl,
         h3.2.2.2.2.2.1 readE rfl, h2.1⟩

/-- Claim C7: writing bytes `b` at `path` in the underlying store and then
reading that path back through the adapter's `ReadFile` returns exactly
`b`. -/
theorem readFile_round_trip (store : String → Option (List Nat)) (path : String)
    (b : List Nat) :
    (FileSystem.ReadFile (FileSystem.mk (storeFiler (writeStore store path b))) path).result =
      Except.ok b := by
  simp [FileSystem.ReadFile, storeFiler, writeStore, AbsFile.ReadAll, AbsFile.Close]

/-- Claim C8: `FileSystem.Open` opens through the underlying filer with the
read-only flag and propagates an underlying failure unchanged, on success
wrapping the opened handle; `FileSystem.Stat` returns exactly the
underlying `Stat`'s outcome. -/
theorem open_stat_forward (fsys : Filer) (name : String) :
    (∀ e, fsys.openFile name O_RDONLY 0 = Except.error e →
        FileSystem.Open (FileSystem.mk fsys) name = Except.error e) ∧
    (∀ u, fsys.openFile name O_RDONLY 0 = Except.ok u →
        FileSystem.Open (FileSystem.mk fsys) name = Except.ok (File.mk u)) ∧
    FileSystem.Stat (FileSystem.mk fsys) name = fsys.stat name := by
  refine ⟨?_, ?_, rfl⟩
  · intro e he
    simp [FileSystem.Open, he]
  · intro u hu
    simp [FileSystem.Open, hu]

/-- Witness for C8: an always-failing filer propagates `enoent` through
`Open` unchanged, and a constant filer's handle comes back wrapped. -/
theorem open_stat_forward_witness :
    FileSystem.Open (FileSystem.mk failOpenFiler) "p" = Except.error enoent ∧
    FileSystem.Open (FileSystem.mk (constFiler (plainDir []))) "p" =
      Except.ok (File.mk (plainDir [])) :=
  ⟨(open_stat_forward failOpenFiler "p").1 enoent rfl,
   (open_stat_forward (constFiler (plainDir [])) "p").2.1 (plainDir []) rfl⟩

/-- Claim C9: every `DirEntry` accessor is a pure projection of the
`FileInfo` record captured when the entry was created, and `Info` always
returns that captured record with a nil error. -/
theorem dirEntry_accessors_project (d : DirEntry) :
    DirEntry.Name d = d.FileInfo.name ∧
    DirEntry.IsDir d = d.FileInfo.isDir ∧
    DirEntry.entryType d = d.FileInfo.mode ∧
    DirEntry.Info d = (d.FileInfo, none) :=
  ⟨rfl, rfl, rfl, rfl⟩

/-- Claim C10: `DirEntry.Type` returns the wrapped record's complete mode
word — the same value `Info` exposes — and in particular keeps the
permission bits, which a type-classification-only `Type` would zero out
(witnessed by a regular file with mode `0o644`). -/
theorem dirEntry_type_full_mode :
    (∀ d : DirEntry, DirEntry.entryType d = (DirEntry.Info d).fst.mode) ∧
    (∃ d : DirEntry, DirEntry.entryType d = 420 ∧ permBits (DirEntry.entryType d) ≠ 0) :=
  ⟨fun _ => rfl, ⟨DirEntry.mk (childInfo "f"), rfl, by decide⟩⟩

end Gofs
